import Mathlib

/-
  Verification of the cN tree core (cn_tree.c and friends) of a
  log-structured storage engine: data model, sampling engine, compaction
  commit/release paths, capped-tree trimmer, lookup descent and the
  concurrent-spill completion picker, shallowly embedded in Lean 4.

  Lists of kvsets are modelled head-first (head = newest kvset, matching
  tn_kvset_list).  Machine integers are modelled as Nat (u64 fields) and
  Int (the signed long fields of cn_samp_stats); overflow is immaterial to
  the properties proved here.
-/

namespace HseCn

/-- errno value used by merr(ESHUTDOWN) in the spill paths. -/
def ESHUTDOWN : Nat := 108

/-- errno value used by merr(EBUG). -/
def EBUG : Nat := 1000

/-- Rolled-up kvset statistics (struct kvset_stats, consumed interface):
allocated/written/uncompressed lengths for hblocks, kblocks and vblocks,
plus key and kvset counts. -/
structure KvsetStats where
  kst_keys   : Nat
  kst_kvsets : Nat
  kst_halen  : Nat
  kst_hwlen  : Nat
  kst_kalen  : Nat
  kst_kwlen  : Nat
  kst_valen  : Nat
  kst_vwlen  : Nat
  kst_vulen  : Nat
  deriving DecidableEq, Repr

def KvsetStats.zero : KvsetStats := ⟨0, 0, 0, 0, 0, 0, 0, 0, 0⟩

/-- kvset_stats_add(src, dst): accumulate src componentwise into dst. -/
def kvset_stats_add (src dst : KvsetStats) : KvsetStats :=
  { kst_keys   := dst.kst_keys + src.kst_keys
    kst_kvsets := dst.kst_kvsets + src.kst_kvsets
    kst_halen  := dst.kst_halen + src.kst_halen
    kst_hwlen  := dst.kst_hwlen + src.kst_hwlen
    kst_kalen  := dst.kst_kalen + src.kst_kalen
    kst_kwlen  := dst.kst_kwlen + src.kst_kwlen
    kst_valen  := dst.kst_valen + src.kst_valen
    kst_vwlen  := dst.kst_vwlen + src.kst_vwlen
    kst_vulen  := dst.kst_vulen + src.kst_vulen }

/-- An immutable kvset (opaque consumed interface).  The hlog content is
modelled as the list of key hashes it has absorbed; max_key is a byte
list.  kvset_get_max_key is modelled as always yielding a key (empty
kvsets are never compaction inputs; only the mocking framework can leave
it unset). -/
structure Kvset where
  dgen      : Nat
  compc     : Nat
  workid    : Nat
  seqno_max : Nat
  max_key   : List Nat
  stats     : KvsetStats
  hlog      : List Nat
  deriving DecidableEq, Repr

/-- struct cn_node_stats: accumulated kvset stats plus the derived fields
computed by tn_samp_update_finish. -/
structure CnNodeStats where
  ns_kst       : KvsetStats
  ns_keys_uniq : Nat
  ns_kclen     : Nat
  ns_vclen     : Nat
  ns_hclen     : Nat
  ns_pcap      : Nat
  deriving DecidableEq, Repr

def CnNodeStats.zero : CnNodeStats := ⟨KvsetStats.zero, 0, 0, 0, 0, 0⟩

/-- struct cn_samp_stats: the five signed counters rolled up per node and
tree-wide (long fields in the source, hence Int). -/
@[ext]
structure CnSampStats where
  r_alen : Int
  r_wlen : Int
  i_alen : Int
  l_alen : Int
  l_good : Int
  deriving DecidableEq, Repr

def CnSampStats.zero : CnSampStats := ⟨0, 0, 0, 0, 0⟩

def CnSampStats.add (a b : CnSampStats) : CnSampStats :=
  ⟨a.r_alen + b.r_alen, a.r_wlen + b.r_wlen, a.i_alen + b.i_alen,
   a.l_alen + b.l_alen, a.l_good + b.l_good⟩

def CnSampStats.sub (a b : CnSampStats) : CnSampStats :=
  ⟨a.r_alen - b.r_alen, a.r_wlen - b.r_wlen, a.i_alen - b.i_alen,
   a.l_alen - b.l_alen, a.l_good - b.l_good⟩

/-- Compaction action kinds (enum cn_action). -/
inductive CnAction where
  | NONE | COMPACT_K | COMPACT_KV | SPILL | SPLIT | ACTION_END
  deriving DecidableEq, Repr

/-- The slice of struct cn_compaction_work needed by the claims.  The mark
is represented by its index in the node's kvset list (0 = head = newest);
the inputs are the kvset_cnt consecutive entries ending at the mark,
running from the mark toward the head. -/
structure CompactionWork where
  cw_action                    : CnAction
  cw_mark                      : Nat
  cw_kvset_cnt                 : Nat
  cw_compc                     : Nat
  cw_dgen_lo                   : Nat
  cw_dgen_hi                   : Nat
  cw_err                       : Nat
  cw_canceled                  : Bool
  cw_have_token                : Bool
  cw_rspill_conc               : Bool
  cw_rspill_done               : Bool
  cw_rspill_commit_in_progress : Bool
  deriving DecidableEq, Repr

/-- struct cn_tree_node: the per-node state the claims touch.  tn_hlog is
optional (it is destroyed on non-leaf nodes by tn_samp_clear);
tn_rspills is the FIFO of in-flight concurrent root spills;
tn_compacting is the exclusive compaction token. -/
@[ext]
structure CnTreeNode where
  tn_nodeid           : Nat
  tn_isroot           : Bool
  tn_kvsets           : List Kvset
  tn_ns               : CnNodeStats
  tn_samp             : CnSampStats
  tn_hlog             : Option (List Nat)
  tn_update_incr_dgen : Nat
  tn_cgen             : Nat
  tn_size_max         : Nat
  tn_compacting       : Bool
  tn_rspills          : List CompactionWork
  tn_rspills_wedged   : Bool
  deriving DecidableEq, Repr

def cn_node_isleaf (tn : CnTreeNode) : Bool := !tn.tn_isroot

def cn_node_isroot (tn : CnTreeNode) : Bool := tn.tn_isroot

/-- struct cn_tree.  The root is kept apart from the leaves, reflecting
the invariant (asserted in the source) that ct_root is always the first
entry of ct_nodes. -/
structure CnTree where
  ct_root       : CnTreeNode
  ct_leaves     : List CnTreeNode
  ct_samp       : CnSampStats
  ct_last_ptomb : List Nat
  ct_last_ptseq : Nat
  deriving DecidableEq, Repr

/-- Modelled from the spec: cn_ns_keys (cn_metrics.h is not under src/);
total key count of a node. -/
def cn_ns_keys (s : CnNodeStats) : Nat := s.ns_kst.kst_keys

/-- Modelled from the spec: cn_ns_kvsets; number of kvsets in a node. -/
def cn_ns_kvsets (s : CnNodeStats) : Nat := s.ns_kst.kst_kvsets

/-- Modelled from the spec: cn_ns_alen; raw allocated length of a node
(header + key + value blocks). -/
def cn_ns_alen (s : CnNodeStats) : Nat :=
  s.ns_kst.kst_halen + s.ns_kst.kst_kalen + s.ns_kst.kst_valen

/-- Modelled from the spec: cn_ns_wlen; raw written length of a node. -/
def cn_ns_wlen (s : CnNodeStats) : Nat :=
  s.ns_kst.kst_hwlen + s.ns_kst.kst_kwlen + s.ns_kst.kst_vwlen

/-- Modelled from the spec: cn_ns_clen; derived compacted-equivalent
length of a node. -/
def cn_ns_clen (s : CnNodeStats) : Nat :=
  s.ns_hclen + s.ns_kclen + s.ns_vclen

/-- Modelled from the spec: hlog_card estimates the number of unique keys
absorbed by the hlog; modelled as the exact distinct count. -/
def hlog_card (h : List Nat) : Nat := h.dedup.length

/-- Modelled from the spec: hlog_union absorbs another hlog. -/
def hlog_union (h other : List Nat) : List Nat := h ++ other

/-- The allocator-aware size estimators (kbb_estimate_alen and
vbb_estimate_alen) are consumed interfaces; the spec directs modelling
them as injected pure functions from write-length to allocated length. -/
structure Estimators where
  kbb_estimate_alen : Nat → Nat
  vbb_estimate_alen : Nat → Nat

/-- tn_samp_clear: destroy the hlog on non-leaf nodes, reset it on leaf
nodes, and zero the node stats, samp record and incremental watermark. -/
def tn_samp_clear (tn : CnTreeNode) : CnTreeNode :=
  let hlog :=
    if !cn_node_isleaf tn && tn.tn_hlog.isSome then none
    else if tn.tn_hlog.isSome then some ([] : List Nat)
    else tn.tn_hlog
  { tn with
    tn_hlog := hlog
    tn_ns := CnNodeStats.zero
    tn_samp := CnSampStats.zero
    tn_update_incr_dgen := 0 }

/-- tn_samp_update_incr: fold one kvset's stats into the node unless its
dgen is at or below the incremental watermark (and force is off). -/
def tn_samp_update_incr (tn : CnTreeNode) (kvset : Kvset) (force : Bool) :
    CnTreeNode × Bool :=
  let dgen := kvset.dgen
  if !force && dgen ≤ tn.tn_update_incr_dgen then (tn, false)
  else
    let tn :=
      match tn.tn_hlog with
      | some h => { tn with tn_hlog := some (hlog_union h kvset.hlog) }
      | none => tn
    let tn :=
      { tn with tn_ns := { tn.tn_ns with ns_kst := kvset_stats_add kvset.stats tn.tn_ns.ns_kst } }
    let tn :=
      if tn.tn_update_incr_dgen < dgen then { tn with tn_update_incr_dgen := dgen } else tn
    (tn, true)

/-- tn_samp_update_finish: derive unique-key estimate, compacted lengths,
pcap, and the per-category samp record from the accumulated stats. -/
def tn_samp_update_finish (est : Estimators) (tn : CnTreeNode) : CnTreeNode :=
  let pct_scale : Nat := 1024
  let num_keys := cn_ns_keys tn.tn_ns
  let keys_uniq :=
    match tn.tn_hlog with
    | some h => min (hlog_card h) num_keys
    | none => num_keys
  let pct := if num_keys > 0 then pct_scale * keys_uniq / num_keys else pct_scale
  let kclen :=
    let cur_alen := tn.tn_ns.ns_kst.kst_kalen
    let new_wlen := tn.tn_ns.ns_kst.kst_kwlen * pct / pct_scale
    min (est.kbb_estimate_alen new_wlen) cur_alen
  let vclen :=
    let cur_alen := tn.tn_ns.ns_kst.kst_valen
    let cur_wlen := tn.tn_ns.ns_kst.kst_vulen * pct / pct_scale
    min (est.vbb_estimate_alen cur_wlen) cur_alen
  let s : CnNodeStats :=
    { tn.tn_ns with
      ns_keys_uniq := keys_uniq
      ns_kclen := kclen
      ns_vclen := vclen
      ns_hclen := tn.tn_ns.ns_kst.kst_halen }
  let s : CnNodeStats :=
    { s with ns_pcap := min 65535 (100 * cn_ns_clen s / tn.tn_size_max) }
  let samp : CnSampStats :=
    if cn_node_isleaf tn then
      { r_alen := 0, r_wlen := 0, i_alen := 0,
        l_alen := (cn_ns_alen s : Int), l_good := (cn_ns_clen s : Int) }
    else
      { r_alen := if cn_node_isroot tn then (cn_ns_alen s : Int) else 0
        r_wlen := if cn_node_isroot tn then (cn_ns_wlen s : Int) else 0
        i_alen := (cn_ns_alen s : Int), l_alen := 0, l_good := 0 }
  { tn with tn_ns := s, tn_samp := samp }

/-- The list_for_each_entry loop of cn_tree_samp_update_compact: fold
every kvset in (force mode), tracking whether any fold happened. -/
def tn_samp_fold (tn : CnTreeNode) : List Kvset → CnTreeNode × Bool
  | [] => (tn, false)
  | kv :: rest =>
    let p := tn_samp_update_incr tn kv true
    let q := tn_samp_fold p.1 rest
    (q.1, p.2 || q.2)

/-- The per-node body of cn_tree_samp_update_compact: clear, fold every
kvset back in, finish if anything was folded. -/
def tn_recompute (est : Estimators) (tn : CnTreeNode) : CnTreeNode :=
  let tn1 := tn_samp_clear tn
  let p := tn_samp_fold tn1 tn1.tn_kvsets
  if p.2 then tn_samp_update_finish est p.1 else p.1

/-- Either the root or the i-th leaf of the tree. -/
inductive NodeRef where
  | root
  | leaf (i : Nat)
  deriving DecidableEq, Repr

def CnTree.getNode (t : CnTree) : NodeRef → Option CnTreeNode
  | .root => some t.ct_root
  | .leaf i => t.ct_leaves.get? i

def CnTree.setNode (t : CnTree) : NodeRef → CnTreeNode → CnTree
  | .root, tn => { t with ct_root := tn }
  | .leaf i, tn => { t with ct_leaves := t.ct_leaves.set i tn }

/-- The delta application shared by the samp update primitives: install
the updated node and add (new samp - captured samp) into ct_samp,
componentwise, exactly as the five += lines do in the source. -/
def samp_apply_delta (t : CnTree) (r : NodeRef) (tn : CnTreeNode)
    (orig : CnSampStats) : CnTree :=
  let t := t.setNode r tn
  { t with ct_samp := t.ct_samp.add (tn.tn_samp.sub orig) }

/-- cn_tree_samp_update_compact: full recomputation of one node's stats
followed by delta application to the tree totals. -/
def cn_tree_samp_update_compact (est : Estimators) (t : CnTree) (r : NodeRef) : CnTree :=
  match t.getNode r with
  | none => t
  | some tn =>
    let orig := tn.tn_samp
    samp_apply_delta t r (tn_recompute est tn) orig

/-- cn_tree_samp_update_ingest: incremental update folding only the head
kvset if its dgen exceeds the watermark; no-op on an empty node. -/
def cn_tree_samp_update_ingest (est : Estimators) (t : CnTree) (r : NodeRef) : CnTree :=
  match t.getNode r with
  | none => t
  | some tn =>
    match tn.tn_kvsets.head? with
    | none => t
    | some kv =>
      let orig := tn.tn_samp
      let p := tn_samp_update_incr tn kv false
      let tn2 := if p.2 then tn_samp_update_finish est p.1 else p.1
      samp_apply_delta t r tn2 orig

/-- cn_tree_samp_update_spill: compact-update the root then ingest-update
every leaf. -/
def cn_tree_samp_update_spill (est : Estimators) (t : CnTree) : CnTree :=
  let t := cn_tree_samp_update_compact est t .root
  (List.range t.ct_leaves.length).foldl
    (fun acc i => cn_tree_samp_update_ingest est acc (.leaf i)) t

/-- The three sampling update entry points (the spill combination is
update_compact on the root followed by update_ingest on each leaf). -/
inductive SampUpdate where
  | compact (r : NodeRef)
  | ingest (r : NodeRef)
  | spill
  deriving DecidableEq, Repr

def applySampUpdate (est : Estimators) : SampUpdate → CnTree → CnTree
  | .compact r, t => cn_tree_samp_update_compact est t r
  | .ingest r, t => cn_tree_samp_update_ingest est t r
  | .spill, t => cn_tree_samp_update_spill est t

/-- Componentwise sum of a list of samp records. -/
def sampSumList (l : List CnSampStats) : CnSampStats :=
  { r_alen := (l.map CnSampStats.r_alen).sum
    r_wlen := (l.map CnSampStats.r_wlen).sum
    i_alen := (l.map CnSampStats.i_alen).sum
    l_alen := (l.map CnSampStats.l_alen).sum
    l_good := (l.map CnSampStats.l_good).sum }

/-- Tree-wide samp totals equal the componentwise sum of the per-node
samp records (spec invariant 4). -/
def sampInv (t : CnTree) : Prop :=
  t.ct_samp = t.ct_root.tn_samp.add (sampSumList (t.ct_leaves.map CnTreeNode.tn_samp))

instance (t : CnTree) : Decidable (sampInv t) := by
  unfold sampInv; infer_instance

/-- cn_tree_ingest_update returns the updated tree together with the
bracketing samp snapshots and the two deltas passed to
csched_notify_ingest. -/
structure IngestOut where
  tree        : CnTree
  samp_pre    : CnSampStats
  samp_post   : CnSampStats
  notify_alen : Int
  notify_wlen : Int
  deriving DecidableEq, Repr

/-- cn_tree_ingest_update: add the new kvset at the head of the root's
kvset list, bump the root's change generation, remember the largest ptomb
for capped trees, incrementally update the samp stats, and report the
r_alen and r_wlen deltas to the scheduler. -/
def cn_tree_ingest_update (est : Estimators) (t : CnTree) (kvset : Kvset)
    (capped : Bool) (ptomb : List Nat) (ptseq : Nat) : IngestOut :=
  let root :=
    { t.ct_root with
      tn_kvsets := kvset :: t.ct_root.tn_kvsets
      tn_cgen := t.ct_root.tn_cgen + 1 }
  let t := { t with ct_root := root }
  let t := if capped then { t with ct_last_ptomb := ptomb, ct_last_ptseq := ptseq } else t
  let pre := t.ct_samp
  let t := cn_tree_samp_update_ingest est t .root
  let post := t.ct_samp
  { tree := t
    samp_pre := pre
    samp_post := post
    notify_alen := post.r_alen - pre.r_alen
    notify_wlen := post.r_wlen - pre.r_wlen }

/-- memcmp over the common length of two byte lists. -/
def memcmpBytes : List Nat → List Nat → Int
  | a :: as, b :: bs =>
    if a < b then -1 else if b < a then 1 else memcmpBytes as bs
  | _, _ => 0

/-- Modelled from the spec: keycmp (hse_util/keycmp.h is not under src/);
lexicographic byte comparison with shorter-key-first tie break. -/
def keycmp (k1 k2 : List Nat) : Int :=
  let rc := memcmpBytes k1 k2
  if rc ≠ 0 then rc else (k1.length : Int) - (k2.length : Int)

/-- Modelled from the spec: keycmp_pfx (keycmp_prefix in the source,
hse_util/keycmp.h is not under src/); compare a key against a prefix,
treating any key shorter than the prefix that matches its own length as
smaller than the prefix. -/
def keycmp_pfx (pfx key : List Nat) : Int :=
  if key.length < pfx.length then
    let rc := keycmp (pfx.take key.length) key
    if rc ≠ 0 then rc else 1
  else
    keycmp pfx (key.take pfx.length)

/-- The loop-break condition of step 1 of cn_tree_capped_compact: stop at
a kvset when no ptomb is remembered, or the kvset's max seqno has reached
the horizon, or the ptomb lexicographically precedes the kvset's max key. -/
def cappedBreakCond (pt : List Nat) (horizon : Nat) (kv : Kvset) : Bool :=
  pt.length = 0 || kv.seqno_max ≥ horizon || keycmp_pfx pt kv.max_key < 0

/-- Step 1 of cn_tree_capped_compact: walk the oldest-first list (already
excluding the newest kvset), counting kvsets until the break condition
fires. -/
def cappedScan (pt : List Nat) (horizon : Nat) : List Kvset → Nat
  | [] => 0
  | kv :: rest =>
    if cappedBreakCond pt horizon kv then 0
    else cappedScan pt horizon rest + 1

/-- cn_tree_capped_compact: trim expired kvsets from the tail of the root
list of a capped tree.  h0 is the sequence horizon obtained from
cn_get_seqno_horizon.  Returns the retired kvsets (oldest first) along
with the updated tree; the cndb transaction is modelled as succeeding
(journal failure leaves the tree unchanged and is outside these claims). -/
def cn_tree_capped_compact (est : Estimators) (t : CnTree) (h0 : Nat) :
    List Kvset × CnTree :=
  let l := t.ct_root.tn_kvsets
  if l.length ≤ 1 then ([], t)
  else
    let pt := t.ct_last_ptomb
    let horizon := if h0 > t.ct_last_ptseq then t.ct_last_ptseq else h0
    let walk := l.reverse.take (l.length - 1)
    let kvset_cnt := cappedScan pt horizon walk
    if kvset_cnt = 0 then ([], t)
    else
      let retired := l.reverse.take kvset_cnt
      let t := { t with ct_root := { t.ct_root with tn_kvsets := l.take (l.length - kvset_cnt) } }
      (retired, cn_tree_samp_update_compact est t .root)

/-- Result of one kvset_lookup call: error code plus lookup result. -/
inductive KLookupRes where
  | NOT_FOUND | FOUND_VAL | FOUND_TMB | FOUND_PTMB
  deriving DecidableEq, Repr

structure KvOut where
  err : Nat
  res : KLookupRes
  deriving DecidableEq, Repr

/-- A kvset lookup outcome forces an immediate return when it carries an
error or anything other than NOT_FOUND. -/
def isHit (o : KvOut) : Bool := o.err ≠ 0 || o.res ≠ .NOT_FOUND

/-- The inner list_for_each_entry loop of cn_tree_lookup: walk a node's
kvset list head to tail, returning the first outcome that is an error or
a hit; none when the whole list comes back NOT_FOUND. -/
def scanKvsets (lk : Kvset → KvOut) : List Kvset → Option KvOut
  | [] => none
  | kv :: rest =>
    let o := lk kv
    if isHit o then some o else scanKvsets lk rest

/-- cn_tree_lookup (QUERY_GET path), unrolled from the while loop, which
runs at most twice: once for the root and once for the leaf resolved by
route_map_lookup (the route map holds only leaf nodes, so the loop breaks
after the second node).  lk models kvset_lookup for the key and view
seqno under query; route models route_map_lookup as the index of the
resolved leaf.  Returns the outcome and the number of nodes visited. -/
def cn_tree_lookup (t : CnTree) (lk : Kvset → KvOut)
    (route : List Nat → Option Nat) (key : List Nat) : KvOut × Nat :=
  match scanKvsets lk t.ct_root.tn_kvsets with
  | some o => (o, 1)
  | none =>
    match route key with
    | none => (⟨0, .NOT_FOUND⟩, 1)
    | some i =>
      match t.ct_leaves.get? i with
      | none => (⟨0, .NOT_FOUND⟩, 1)
      | some leaf =>
        match scanKvsets lk leaf.tn_kvsets with
        | some o => (o, 2)
        | none => (⟨0, .NOT_FOUND⟩, 2)

/-- The outputs of cn_tree_prepare_compaction relevant to the claims:
the number of outputs, the tombstone-drop flag, and the dgens of the
input iterator vector (ins[i] newer than ins[i+1]). -/
structure PrepOut where
  n_outs        : Nat
  cw_drop_tombs : Bool
  ins_dgens     : List Nat
  deriving DecidableEq, Repr

/-- cn_tree_prepare_compaction, with allocations modelled as succeeding.
Split demands that the work covers the node's whole kvset list (EBUG
otherwise) and builds no input iterators; other actions build the
iterator vector from the mark toward the head.  The tombstone-drop flag
is set when the action is not spill and the mark is the oldest entry of
the node's kvset list. -/
def cn_tree_prepare_compaction (fanout : Nat) (w : CompactionWork)
    (node : CnTreeNode) : Except Nat PrepOut :=
  let kcompact := w.cw_action = .COMPACT_K
  let split := w.cw_action = .SPLIT
  if split ∧ cn_ns_kvsets node.tn_ns ≠ w.cw_kvset_cnt then
    .error EBUG
  else
    let n_outs :=
      if split then 2 * w.cw_kvset_cnt
      else if kcompact ∨ w.cw_action = .COMPACT_KV then 1
      else fanout
    let ins :=
      if split then []
      else
        ((node.tn_kvsets.drop (w.cw_mark + 1 - w.cw_kvset_cnt)).take w.cw_kvset_cnt).map
          Kvset.dgen
    .ok
      { n_outs := n_outs
        cw_drop_tombs :=
          w.cw_action ≠ .SPILL ∧ w.cw_mark + 1 = node.tn_kvsets.length
        ins_dgens := ins }

/-- The kvset metadata derived per output by cn_comp_commit. -/
structure KvsetMeta where
  km_dgen   : Nat
  km_compc  : Nat
  km_nodeid : Nat
  deriving DecidableEq, Repr

/-- The metadata-derivation step of cn_comp_commit for output i: dgen,
destination node id, and compc.  For spill, destNode is
cw_output_nodev[i] and the compc is seeded with +7 on an empty
destination with many blocks; for split, the per-output dgen and node id
vectors supply the values and compc is carried; for k/kv-compact the
compc is bumped unless the increment would exceed the next-older kvset's
compc (the entry just past the mark). -/
def cn_comp_commit_km (w : CompactionWork) (node : CnTreeNode)
    (destNode : CnTreeNode) (outKblks outVblks : Nat)
    (splitNodeid splitDgen : Nat) : KvsetMeta :=
  match w.cw_action with
  | .SPILL =>
    let compc :=
      if cn_ns_kvsets destNode.tn_ns = 0 then
        if outKblks > 2 ∨ outVblks > 32 then 0 + 7 else 0
      else 0
    { km_dgen := w.cw_dgen_hi, km_compc := compc, km_nodeid := destNode.tn_nodeid }
  | .SPLIT =>
    { km_dgen := splitDgen, km_compc := w.cw_compc, km_nodeid := splitNodeid }
  | _ =>
    let older := node.tn_kvsets.get? (w.cw_mark + 1)
    let compc :=
      match older with
      | none => w.cw_compc + 1
      | some le => if w.cw_compc < le.compc then w.cw_compc + 1 else w.cw_compc
    { km_dgen := w.cw_dgen_hi, km_compc := compc, km_nodeid := node.tn_nodeid }

/-- Set the workid of the kvset at the given index to zero. -/
def setWorkidZero : List Kvset → Nat → List Kvset
  | [], _ => []
  | kv :: rest, 0 => { kv with workid := 0 } :: rest
  | kv :: rest, i + 1 => kv :: setWorkidZero rest i

/-- The unmark loop of cn_comp_release: starting at the mark, clear the
workid of cnt consecutive kvsets walking toward the head of the list. -/
def unmark_workids : Nat → Nat → List Kvset → List Kvset
  | _, 0, ks => ks
  | markIdx, c + 1, ks => unmark_workids (markIdx - 1) c (setWorkidZero ks markIdx)

/-- cn_comp_release: drop the job from the head of the concurrent-spill
FIFO if it is on it, unmark all input kvsets when the job failed, and
return the node's compaction token if the job held it. -/
def cn_comp_release (w : CompactionWork) (node : CnTreeNode) : CnTreeNode :=
  let node :=
    if w.cw_rspill_conc then { node with tn_rspills := node.tn_rspills.tail } else node
  let node :=
    if w.cw_err ≠ 0 then
      { node with tn_kvsets := unmark_workids w.cw_mark w.cw_kvset_cnt node.tn_kvsets }
    else node
  if w.cw_have_token then { node with tn_compacting := false } else node

/-- get_completed_spill: peek the head of the concurrent-spill FIFO;
return none unless it is done and not already being committed; otherwise
set commit_in_progress, force ESHUTDOWN onto error-free jobs of a wedged
node, and return the job (still at the head of the list). -/
def get_completed_spill (node : CnTreeNode) : Option CompactionWork × CnTreeNode :=
  match node.tn_rspills with
  | [] => (none, node)
  | w :: rest =>
    if !w.cw_rspill_done || w.cw_rspill_commit_in_progress then (none, node)
    else
      let w := { w with cw_rspill_commit_in_progress := true }
      let w :=
        if node.tn_rspills_wedged && w.cw_err = 0 then
          { w with cw_err := ESHUTDOWN, cw_canceled := true }
        else w
      (some w, { node with tn_rspills := w :: rest })

/-- The capped-trimmer inclusion condition exactly as the claim (and
spec section 4.8) words it, for comparison with the source embedding:
include a kvset when its max seqno is below the horizon and either no
ptomb is remembered or the ptomb lexicographically precedes the kvset's
max key. -/
def spec_capped_include (pt : List Nat) (horizon : Nat) (kv : Kvset) : Bool :=
  decide (kv.seqno_max < horizon) &&
    (pt.length = 0 || keycmp_pfx pt kv.max_key < 0)

/-- The k/kv-compact compc rule exactly as the claim words it, for
comparison with the source embedding: bump by one unless the next-older
kvset has a strictly smaller compc, in which case carry unchanged. -/
def spec_compc_kvcompact (cw_compc : Nat) (older : Option Nat) : Nat :=
  match older with
  | none => cw_compc + 1
  | some oc => if oc < cw_compc then cw_compc else cw_compc + 1

/-- Identity size estimators, used for concrete evaluations. -/
def estId : Estimators := ⟨fun n => n, fun n => n⟩

/-- A zeroed samp record shorthand for concrete nodes. -/
def nodeOfKvsets (kvsets : List Kvset) (isroot : Bool) : CnTreeNode :=
  { tn_nodeid := if isroot then 0 else 1
    tn_isroot := isroot
    tn_kvsets := kvsets
    tn_ns := CnNodeStats.zero
    tn_samp := CnSampStats.zero
    tn_hlog := none
    tn_update_incr_dgen := 0
    tn_cgen := 0
    tn_size_max := 1048576
    tn_compacting := false
    tn_rspills := []
    tn_rspills_wedged := false }

/-- A concrete kvset for evaluations: dgen d, compc c, workid w,
max seqno s, max key k. -/
def mkKvset (d c w s : Nat) (k : List Nat) : Kvset :=
  { dgen := d, compc := c, workid := w, seqno_max := s, max_key := k
    stats := ⟨2, 1, 16, 8, 32, 24, 64, 48, 40⟩, hlog := [d] }

/-- Concrete capped tree: two root kvsets, no ptomb remembered,
remembered ptomb seqno 5. -/
def treeC1 : CnTree :=
  { ct_root := nodeOfKvsets [mkKvset 2 0 0 9 [98], mkKvset 1 0 0 0 [97]] true
    ct_leaves := []
    ct_samp := CnSampStats.zero
    ct_last_ptomb := []
    ct_last_ptseq := 5 }

/-- Concrete capped tree with a remembered ptomb [255] at seqno 10 that
covers the oldest kvset's max key [97]. -/
def treeC1w : CnTree :=
  { ct_root := nodeOfKvsets [mkKvset 2 0 0 9 [98], mkKvset 1 0 0 0 [97]] true
    ct_leaves := []
    ct_samp := CnSampStats.zero
    ct_last_ptomb := [255]
    ct_last_ptseq := 10 }

/-- Concrete completed spill job at the head of a wedged root's FIFO. -/
def wC2 : CompactionWork :=
  { cw_action := .SPILL, cw_mark := 0, cw_kvset_cnt := 1, cw_compc := 0
    cw_dgen_lo := 1, cw_dgen_hi := 1, cw_err := 0, cw_canceled := false
    cw_have_token := false, cw_rspill_conc := true, cw_rspill_done := true
    cw_rspill_commit_in_progress := false }

def nodeC2 : CnTreeNode :=
  { nodeOfKvsets [mkKvset 1 0 0 0 [97]] true with
    tn_rspills := [wC2]
    tn_rspills_wedged := true }

/-- Concrete kv-compact work whose compc equals the next-older kvset's
compc. -/
def wC3 : CompactionWork :=
  { cw_action := .COMPACT_KV, cw_mark := 0, cw_kvset_cnt := 1, cw_compc := 0
    cw_dgen_lo := 2, cw_dgen_hi := 2, cw_err := 0, cw_canceled := false
    cw_have_token := true, cw_rspill_conc := false, cw_rspill_done := false
    cw_rspill_commit_in_progress := false }

def nodeC3 : CnTreeNode :=
  nodeOfKvsets [mkKvset 2 0 2 5 [98], mkKvset 1 0 0 3 [97]] false

/-- Concrete tree with a zeroed root and one zeroed leaf, satisfying the
samp sum invariant. -/
def treeW : CnTree :=
  { ct_root := nodeOfKvsets [mkKvset 1 0 0 3 [97]] true
    ct_leaves := [nodeOfKvsets [] false]
    ct_samp := CnSampStats.zero
    ct_last_ptomb := []
    ct_last_ptseq := 0 }

/-- Concrete kv-compact work targeting the oldest kvset of a two-kvset
node. -/
def wC6 : CompactionWork :=
  { cw_action := .COMPACT_KV, cw_mark := 1, cw_kvset_cnt := 2, cw_compc := 0
    cw_dgen_lo := 1, cw_dgen_hi := 2, cw_err := 0, cw_canceled := false
    cw_have_token := true, cw_rspill_conc := false, cw_rspill_done := false
    cw_rspill_commit_in_progress := false }

def nodeC6 : CnTreeNode :=
  { nodeOfKvsets [mkKvset 2 0 2 5 [98], mkKvset 1 0 1 3 [97]] false with
    tn_ns := { CnNodeStats.zero with ns_kst := { KvsetStats.zero with kst_kvsets := 2 } } }

/-- Concrete failed job holding the token, covering both kvsets of a
node. -/
def wC10 : CompactionWork :=
  { cw_action := .COMPACT_KV, cw_mark := 1, cw_kvset_cnt := 2, cw_compc := 0
    cw_dgen_lo := 1, cw_dgen_hi := 2, cw_err := 5, cw_canceled := false
    cw_have_token := true, cw_rspill_conc := false, cw_rspill_done := false
    cw_rspill_commit_in_progress := false }

def nodeC10 : CnTreeNode :=
  { nodeOfKvsets [mkKvset 2 0 7 5 [98], mkKvset 1 0 9 3 [97]] false with
    tn_compacting := true }

/-- The preparation output for wC6 on nodeC6. -/
def outC6 : PrepOut :=
  { n_outs := 1, cw_drop_tombs := true, ins_dgens := [2, 1] }

/-! ## Theorems -/

/-- C9: After the finish step of any sampling update on any node, the
derived compacted key length never exceeds the node's allocated key
length (ns_kclen <= kst_kalen), the derived compacted value length never
exceeds the allocated value length (ns_vclen <= kst_valen), and ns_pcap
never exceeds 65535. -/
theorem c9_finish_clen_bounds (est : Estimators) (tn : CnTreeNode) :
    ((tn_samp_update_finish est tn).tn_ns).ns_kclen ≤
        ((tn_samp_update_finish est tn).tn_ns).ns_kst.kst_kalen ∧
      ((tn_samp_update_finish est tn).tn_ns).ns_vclen ≤
        ((tn_samp_update_finish est tn).tn_ns).ns_kst.kst_valen ∧
      ((tn_samp_update_finish est tn).tn_ns).ns_pcap ≤ 65535 := by
  refine ⟨?_, ?_, ?_⟩ <;>
    simp [tn_samp_update_finish, Nat.min_le_right, Nat.min_le_left]

lemma int_sum_set :
    ∀ (l : List Int) (i : Nat) (x a : Int), l.get? i = some x →
      (l.set i a).sum = l.sum - x + a
  | [], i, x, a, h => by simp at h
  | b :: bs, 0, x, a, h => by
    simp only [List.get?_cons_zero, Option.some.injEq] at h
    subst h
    simp [List.sum_cons]
    ring
  | b :: bs, i + 1, x, a, h => by
    simp only [List.get?_cons_succ] at h
    have hs : (b :: bs).set (i + 1) a = b :: bs.set i a := rfl
    rw [hs, List.sum_cons, List.sum_cons, int_sum_set bs i x a h]
    ring

lemma samp_apply_delta_inv (t : CnTree) (r : NodeRef) (tn tn' : CnTreeNode)
    (hget : t.getNode r = some tn) (hinv : sampInv t) :
    sampInv (samp_apply_delta t r tn' tn.tn_samp) := by
  cases r with
  | root =>
    simp only [CnTree.getNode, Option.some.injEq] at hget
    subst hget
    unfold sampInv samp_apply_delta CnTree.setNode at *
    rw [hinv]
    ext <;> simp [CnSampStats.add, CnSampStats.sub] <;> ring
  | leaf i =>
    simp only [CnTree.getNode] at hget
    unfold sampInv samp_apply_delta CnTree.setNode at *
    have hm : ∀ f : CnSampStats → Int,
        ((t.ct_leaves.set i tn').map CnTreeNode.tn_samp).map f =
          ((t.ct_leaves.map CnTreeNode.tn_samp).map f).set i (f tn'.tn_samp) := by
      intro f
      rw [List.map_set, List.map_set]
    have hg : ∀ f : CnSampStats → Int,
        ((t.ct_leaves.map CnTreeNode.tn_samp).map f).get? i = some (f tn.tn_samp) := by
      intro f
      rw [List.get?_map, List.get?_map, hget]
      rfl
    rw [hinv]
    ext <;>
      simp only [sampSumList, CnSampStats.add, CnSampStats.sub, hm,
        int_sum_set _ i _ _ (hg _)] <;>
      ring

lemma samp_update_compact_inv (est : Estimators) (t : CnTree) (r : NodeRef)
    (h : sampInv t) : sampInv (cn_tree_samp_update_compact est t r) := by
  unfold cn_tree_samp_update_compact
  cases hg : t.getNode r with
  | none => exact h
  | some tn => exact samp_apply_delta_inv t r tn _ hg h

lemma samp_update_ingest_inv (est : Estimators) (t : CnTree) (r : NodeRef)
    (h : sampInv t) : sampInv (cn_tree_samp_update_ingest est t r) := by
  unfold cn_tree_samp_update_ingest
  cases hg : t.getNode r with
  | none => exact h
  | some tn =>
    dsimp only
    cases hh : tn.tn_kvsets.head? with
    | none => exact h
    | some kv => exact samp_apply_delta_inv t r tn _ hg h

lemma samp_ingest_foldl_inv (est : Estimators) :
    ∀ (l : List Nat) (t : CnTree), sampInv t →
      sampInv (l.foldl (fun acc i => cn_tree_samp_update_ingest est acc (.leaf i)) t)
  | [], t, h => h
  | i :: is, t, h =>
    samp_ingest_foldl_inv est is _ (samp_update_ingest_inv est t (.leaf i) h)

lemma samp_update_spill_inv (est : Estimators) (t : CnTree)
    (h : sampInv t) : sampInv (cn_tree_samp_update_spill est t) := by
  unfold cn_tree_samp_update_spill
  exact samp_ingest_foldl_inv est _ _ (samp_update_compact_inv est t .root h)

/-- C4: After any sampling update (the full per-node recomputation
update_compact, the incremental update_ingest, or the spill combination
of the two), the tree-wide samp record equals the componentwise sum over
all tree nodes of the per-node samp records, in each of the five
counters r_alen, r_wlen, i_alen, l_alen and l_good. -/
theorem c4_samp_sum_invariant (est : Estimators) (u : SampUpdate) (t : CnTree)
    (h : sampInv t) : sampInv (applySampUpdate est u t) := by
  cases u with
  | compact r => exact samp_update_compact_inv est t r h
  | ingest r => exact samp_update_ingest_inv est t r h
  | spill => exact samp_update_spill_inv est t h

/-- The node fields that the per-node sampling computation leaves intact
(everything except tn_ns, tn_samp, tn_update_incr_dgen and the hlog
content; of the hlog only presence is tracked). -/
def sampFrame (a b : CnTreeNode) : Prop :=
  a.tn_nodeid = b.tn_nodeid ∧ a.tn_isroot = b.tn_isroot ∧
  a.tn_kvsets = b.tn_kvsets ∧ a.tn_cgen = b.tn_cgen ∧
  a.tn_size_max = b.tn_size_max ∧ a.tn_compacting = b.tn_compacting ∧
  a.tn_rspills = b.tn_rspills ∧ a.tn_rspills_wedged = b.tn_rspills_wedged ∧
  a.tn_hlog.isSome = b.tn_hlog.isSome

lemma sampFrame_refl (a : CnTreeNode) : sampFrame a a := by
  unfold sampFrame
  exact ⟨rfl, rfl, rfl, rfl, rfl, rfl, rfl, rfl, rfl⟩

lemma sampFrame_trans {a b c : CnTreeNode} (h1 : sampFrame a b)
    (h2 : sampFrame b c) : sampFrame a c := by
  unfold sampFrame at *
  obtain ⟨e1, e2, e3, e4, e5, e6, e7, e8, e9⟩ := h1
  obtain ⟨f1, f2, f3, f4, f5, f6, f7, f8, f9⟩ := h2
  exact ⟨e1.trans f1, e2.trans f2, e3.trans f3, e4.trans f4, e5.trans f5,
    e6.trans f6, e7.trans f7, e8.trans f8, e9.trans f9⟩

lemma incr_sampFrame (tn : CnTreeNode) (kv : Kvset) (force : Bool) :
    sampFrame (tn_samp_update_incr tn kv force).1 tn := by
  obtain ⟨n1, n2, n3, n4, n5, hlog, n7, n8, n9, n10, n11, n12⟩ := tn
  unfold tn_samp_update_incr sampFrame
  cases hlog <;> dsimp only <;> split_ifs <;> simp_all

lemma fold_sampFrame : ∀ (l : List Kvset) (tn : CnTreeNode),
    sampFrame (tn_samp_fold tn l).1 tn
  | [], tn => sampFrame_refl tn
  | kv :: rest, tn => by
    unfold tn_samp_fold
    exact sampFrame_trans (fold_sampFrame rest _) (incr_sampFrame tn kv true)

lemma finish_sampFrame (est : Estimators) (tn : CnTreeNode) :
    sampFrame (tn_samp_update_finish est tn) tn := by
  unfold tn_samp_update_finish sampFrame
  exact ⟨rfl, rfl, rfl, rfl, rfl, rfl, rfl, rfl, rfl⟩

lemma clear_sampFrame_core (tn : CnTreeNode) :
    (tn_samp_clear tn).tn_nodeid = tn.tn_nodeid ∧
    (tn_samp_clear tn).tn_isroot = tn.tn_isroot ∧
    (tn_samp_clear tn).tn_kvsets = tn.tn_kvsets ∧
    (tn_samp_clear tn).tn_cgen = tn.tn_cgen ∧
    (tn_samp_clear tn).tn_size_max = tn.tn_size_max ∧
    (tn_samp_clear tn).tn_compacting = tn.tn_compacting ∧
    (tn_samp_clear tn).tn_rspills = tn.tn_rspills ∧
    (tn_samp_clear tn).tn_rspills_wedged = tn.tn_rspills_wedged := by
  unfold tn_samp_clear
  exact ⟨rfl, rfl, rfl, rfl, rfl, rfl, rfl, rfl⟩

lemma recompute_sampFrame (est : Estimators) (tn : CnTreeNode) :
    sampFrame (tn_recompute est tn) (tn_samp_clear tn) := by
  unfold tn_recompute
  dsimp only
  split
  · exact sampFrame_trans (finish_sampFrame est _) (fold_sampFrame _ _)
  · exact fold_sampFrame _ _

/-- tn_samp_clear only looks at the sampFrame fields of its input, so it
maps sampFrame-related nodes to the same node. -/
lemma clear_congr {a b : CnTreeNode} (h : sampFrame a b) :
    tn_samp_clear a = tn_samp_clear b := by
  obtain ⟨e1, e2, e3, e4, e5, e6, e7, e8, e9⟩ := h
  unfold tn_samp_clear cn_node_isleaf
  cases ha : a.tn_hlog <;> cases hb : b.tn_hlog <;>
    ext1 <;> simp_all

lemma clear_idem (tn : CnTreeNode) :
    tn_samp_clear (tn_samp_clear tn) = tn_samp_clear tn := by
  obtain ⟨n1, isroot, n3, n4, n5, hlog, n7, n8, n9, n10, n11, n12⟩ := tn
  unfold tn_samp_clear cn_node_isleaf
  cases isroot <;> cases hlog <;> simp

lemma tn_recompute_idem (est : Estimators) (tn : CnTreeNode) :
    tn_recompute est (tn_recompute est tn) = tn_recompute est tn := by
  have h1 : tn_samp_clear (tn_recompute est tn) = tn_samp_clear tn :=
    (clear_congr (recompute_sampFrame est tn)).trans (clear_idem tn)
  show
    (let tn1 := tn_samp_clear (tn_recompute est tn)
     let p := tn_samp_fold tn1 tn1.tn_kvsets
     if p.2 then tn_samp_update_finish est p.1 else p.1) = tn_recompute est tn
  rw [h1]
  rfl

lemma sampAdd_sub_self (a x : CnSampStats) : a.add (x.sub x) = a := by
  ext <;> simp [CnSampStats.add, CnSampStats.sub]

lemma getNode_apply_delta (t : CnTree) (r : NodeRef) (tn tn' : CnTreeNode)
    (o : CnSampStats) (hget : t.getNode r = some tn) :
    (samp_apply_delta t r tn' o).getNode r = some tn' := by
  cases r with
  | root => rfl
  | leaf i =>
    simp only [CnTree.getNode, samp_apply_delta, CnTree.setNode] at hget ⊢
    have hlt : i < t.ct_leaves.length := by
      rcases List.get?_eq_some.mp hget with ⟨h, -⟩
      exact h
    rw [List.get?_eq_getElem?, List.getElem?_set_eq_of_lt _ hlt]

lemma apply_delta_twice (t : CnTree) (r : NodeRef) (tn1 : CnTreeNode)
    (o : CnSampStats) :
    samp_apply_delta (samp_apply_delta t r tn1 o) r tn1 tn1.tn_samp =
      samp_apply_delta t r tn1 o := by
  cases r with
  | root =>
    unfold samp_apply_delta CnTree.setNode
    dsimp only
    rw [sampAdd_sub_self]
  | leaf i =>
    unfold samp_apply_delta CnTree.setNode
    dsimp only
    rw [sampAdd_sub_self, List.set_set]

/-- C8: Running the full samp recomputation (update_compact) twice in
succession on a node whose kvset list has not changed yields the same
node stats, node samp record and tree samp totals as running it once:
the second run is a no-op on the resulting state. -/
theorem c8_update_compact_idem (est : Estimators) (t : CnTree) (r : NodeRef) :
    cn_tree_samp_update_compact est (cn_tree_samp_update_compact est t r) r =
      cn_tree_samp_update_compact est t r := by
  unfold cn_tree_samp_update_compact
  cases hg : t.getNode r with
  | none => simp [hg]
  | some tn =>
    have hg2 : (samp_apply_delta t r (tn_recompute est tn) tn.tn_samp).getNode r
        = some (tn_recompute est tn) := getNode_apply_delta t r tn _ _ hg
    simp only [hg, hg2]
    rw [tn_recompute_idem]
    exact apply_delta_twice t r (tn_recompute est tn) tn.tn_samp

lemma cn_ns_alen_add (ns : CnNodeStats) (kv : Kvset) :
    cn_ns_alen ns ≤
      cn_ns_alen { ns with ns_kst := kvset_stats_add kv.stats ns.ns_kst } := by
  unfold cn_ns_alen kvset_stats_add
  dsimp only
  omega

lemma cn_ns_wlen_add (ns : CnNodeStats) (kv : Kvset) :
    cn_ns_wlen ns ≤
      cn_ns_wlen { ns with ns_kst := kvset_stats_add kv.stats ns.ns_kst } := by
  unfold cn_ns_wlen kvset_stats_add
  dsimp only
  omega

lemma finish_samp_root (est : Estimators) (tn : CnTreeNode)
    (h : tn.tn_isroot = true) :
    (tn_samp_update_finish est tn).tn_samp =
      { r_alen := (cn_ns_alen tn.tn_ns : Int)
        r_wlen := (cn_ns_wlen tn.tn_ns : Int)
        i_alen := (cn_ns_alen tn.tn_ns : Int)
        l_alen := 0, l_good := 0 } := by
  unfold tn_samp_update_finish cn_node_isleaf cn_node_isroot
  dsimp only
  rw [h]
  simp [cn_ns_alen, cn_ns_wlen]

lemma ingest_tn2_frame (est : Estimators) (tn : CnTreeNode) (kv : Kvset) :
    sampFrame
      (let p := tn_samp_update_incr tn kv false
       if p.2 then tn_samp_update_finish est p.1 else p.1) tn := by
  dsimp only
  split
  · exact sampFrame_trans (finish_sampFrame est _) (incr_sampFrame tn kv false)
  · exact incr_sampFrame tn kv false

lemma incr_skip (tn : CnTreeNode) (kv : Kvset)
    (h : kv.dgen ≤ tn.tn_update_incr_dgen) :
    tn_samp_update_incr tn kv false = (tn, false) := by
  unfold tn_samp_update_incr
  simp [h]

lemma incr_go (tn : CnTreeNode) (kv : Kvset)
    (h : ¬kv.dgen ≤ tn.tn_update_incr_dgen) :
    (tn_samp_update_incr tn kv false).1.tn_ns =
        { tn.tn_ns with ns_kst := kvset_stats_add kv.stats tn.tn_ns.ns_kst } ∧
      (tn_samp_update_incr tn kv false).2 = true := by
  unfold tn_samp_update_incr
  simp only [Bool.not_false, Bool.true_and, decide_eq_true_eq, if_neg h]
  cases hh : tn.tn_hlog <;> dsimp only <;> split_ifs <;> exact ⟨rfl, trivial⟩

lemma ingest_tn2_samp (est : Estimators) (tn : CnTreeNode) (kv : Kvset)
    (hroot : tn.tn_isroot = true) :
    ((if (tn_samp_update_incr tn kv false).2 then
        tn_samp_update_finish est (tn_samp_update_incr tn kv false).1
      else (tn_samp_update_incr tn kv false).1).tn_samp = tn.tn_samp) ∨
      ((cn_ns_alen tn.tn_ns : Int) ≤
          (if (tn_samp_update_incr tn kv false).2 then
            tn_samp_update_finish est (tn_samp_update_incr tn kv false).1
          else (tn_samp_update_incr tn kv false).1).tn_samp.i_alen ∧
        (cn_ns_wlen tn.tn_ns : Int) ≤
          (if (tn_samp_update_incr tn kv false).2 then
            tn_samp_update_finish est (tn_samp_update_incr tn kv false).1
          else (tn_samp_update_incr tn kv false).1).tn_samp.r_wlen ∧
        (if (tn_samp_update_incr tn kv false).2 then
            tn_samp_update_finish est (tn_samp_update_incr tn kv false).1
          else (tn_samp_update_incr tn kv false).1).tn_samp.l_alen = 0 ∧
        (if (tn_samp_update_incr tn kv false).2 then
            tn_samp_update_finish est (tn_samp_update_incr tn kv false).1
          else (tn_samp_update_incr tn kv false).1).tn_samp.l_good = 0) := by
  by_cases hc : kv.dgen ≤ tn.tn_update_incr_dgen
  · left
    rw [incr_skip tn kv hc]
    rfl
  · right
    obtain ⟨hns, hsnd⟩ := incr_go tn kv hc
    have hroot1 : (tn_samp_update_incr tn kv false).1.tn_isroot = true :=
      ((incr_sampFrame tn kv false).2.1).trans hroot
    simp only [hsnd, if_pos]
    rw [finish_samp_root est _ hroot1, hns]
    refine ⟨?_, ?_, rfl, rfl⟩ <;>
      · exact_mod_cast Nat.cast_le.mpr (by first
          | exact cn_ns_alen_add tn.tn_ns kv
          | exact cn_ns_wlen_add tn.tn_ns kv)

lemma ingest_update_root (est : Estimators) (t : CnTree) (kv : Kvset)
    (rest : List Kvset) (hk : t.ct_root.tn_kvsets = kv :: rest)
    (hroot : t.ct_root.tn_isroot = true)
    (hia : t.ct_root.tn_samp.i_alen ≤ (cn_ns_alen t.ct_root.tn_ns : Int))
    (hrw : t.ct_root.tn_samp.r_wlen ≤ (cn_ns_wlen t.ct_root.tn_ns : Int))
    (hla : t.ct_root.tn_samp.l_alen = 0)
    (hlg : t.ct_root.tn_samp.l_good = 0) :
    (cn_tree_samp_update_ingest est t .root).ct_root.tn_kvsets =
        t.ct_root.tn_kvsets ∧
      (cn_tree_samp_update_ingest est t .root).ct_root.tn_cgen =
        t.ct_root.tn_cgen ∧
      t.ct_samp.i_alen ≤ (cn_tree_samp_update_ingest est t .root).ct_samp.i_alen ∧
      t.ct_samp.r_wlen ≤ (cn_tree_samp_update_ingest est t .root).ct_samp.r_wlen ∧
      (cn_tree_samp_update_ingest est t .root).ct_samp.l_alen = t.ct_samp.l_alen ∧
      (cn_tree_samp_update_ingest est t .root).ct_samp.l_good = t.ct_samp.l_good := by
  unfold cn_tree_samp_update_ingest CnTree.getNode
  simp only [hk, List.head?_cons]
  unfold samp_apply_delta CnTree.setNode
  dsimp only
  have hframe := ingest_tn2_frame est t.ct_root kv
  dsimp only at hframe
  obtain ⟨-, -, hkv, hcg, -, -, -, -, -⟩ := hframe
  refine ⟨hkv.trans hk, hcg, ?_⟩
  have hsamp := ingest_tn2_samp est t.ct_root kv hroot
  rcases hsamp with heq | ⟨h1, h2, h3, h4⟩ <;>
    [rw [heq]; skip] <;>
    simp only [CnSampStats.add, CnSampStats.sub] <;>
    refine ⟨?_, ?_, ?_, ?_⟩ <;>
    omega

/-- C7: For every ingest update, the new kvset is added at the head of
the root's kvset list and the root's change generation is incremented;
across the bracketing samp snapshots the internal and root written-length
totals do not decrease (post.i_alen >= pre.i_alen and post.r_wlen >=
pre.r_wlen) while the leaf totals are unchanged (post.l_alen ==
pre.l_alen and post.l_good == pre.l_good); the scheduler is notified with
exactly the deltas in r_alen and r_wlen.  The hypotheses state the
sampling consistency the source's asserts rely on: the root's samp record
under-approximates its accumulated stats and carries no leaf totals, as
established by every finish step on a root node. -/
theorem c7_ingest_update (est : Estimators) (t : CnTree) (kvset : Kvset)
    (capped : Bool) (ptomb : List Nat) (ptseq : Nat)
    (hroot : t.ct_root.tn_isroot = true)
    (hia : t.ct_root.tn_samp.i_alen ≤ (cn_ns_alen t.ct_root.tn_ns : Int))
    (hrw : t.ct_root.tn_samp.r_wlen ≤ (cn_ns_wlen t.ct_root.tn_ns : Int))
    (hla : t.ct_root.tn_samp.l_alen = 0)
    (hlg : t.ct_root.tn_samp.l_good = 0) :
    (cn_tree_ingest_update est t kvset capped ptomb ptseq).tree.ct_root.tn_kvsets =
        kvset :: t.ct_root.tn_kvsets ∧
      (cn_tree_ingest_update est t kvset capped ptomb ptseq).tree.ct_root.tn_cgen =
        t.ct_root.tn_cgen + 1 ∧
      (cn_tree_ingest_update est t kvset capped ptomb ptseq).samp_pre.i_alen ≤
        (cn_tree_ingest_update est t kvset capped ptomb ptseq).samp_post.i_alen ∧
      (cn_tree_ingest_update est t kvset capped ptomb ptseq).samp_pre.r_wlen ≤
        (cn_tree_ingest_update est t kvset capped ptomb ptseq).samp_post.r_wlen ∧
      (cn_tree_ingest_update est t kvset capped ptomb ptseq).samp_post.l_alen =
        (cn_tree_ingest_update est t kvset capped ptomb ptseq).samp_pre.l_alen ∧
      (cn_tree_ingest_update est t kvset capped ptomb ptseq).samp_post.l_good =
        (cn_tree_ingest_update est t kvset capped ptomb ptseq).samp_pre.l_good ∧
      (cn_tree_ingest_update est t kvset capped ptomb ptseq).notify_alen =
        (cn_tree_ingest_update est t kvset capped ptomb ptseq).samp_post.r_alen -
          (cn_tree_ingest_update est t kvset capped ptomb ptseq).samp_pre.r_alen ∧
      (cn_tree_ingest_update est t kvset capped ptomb ptseq).notify_wlen =
        (cn_tree_ingest_update est t kvset capped ptomb ptseq).samp_post.r_wlen -
          (cn_tree_ingest_update est t kvset capped ptomb ptseq).samp_pre.r_wlen := by
  unfold cn_tree_ingest_update
  cases capped <;> dsimp only
  · obtain ⟨g1, g2, g3, g4, g5, g6⟩ :=
      ingest_update_root est
        { t with ct_root :=
            { t.ct_root with
              tn_kvsets := kvset :: t.ct_root.tn_kvsets
              tn_cgen := t.ct_root.tn_cgen + 1 } }
        kvset t.ct_root.tn_kvsets rfl hroot hia hrw hla hlg
    exact ⟨g1, g2, g3, g4, g5, g6, rfl, rfl⟩
  · obtain ⟨g1, g2, g3, g4, g5, g6⟩ :=
      ingest_update_root est
        { t with
          ct_root :=
            { t.ct_root with
              tn_kvsets := kvset :: t.ct_root.tn_kvsets
              tn_cgen := t.ct_root.tn_cgen + 1 }
          ct_last_ptomb := ptomb
          ct_last_ptseq := ptseq }
        kvset t.ct_root.tn_kvsets rfl hroot hia hrw hla hlg
    exact ⟨g1, g2, g3, g4, g5, g6, rfl, rfl⟩

/-- C1 counterexample: in the capped-tree trimmer with no ptomb
remembered, the oldest root kvset has max seqno 0 below the horizon 5,
so the claim's inclusion condition holds for it; yet the walk retires
nothing, because the source breaks out of the loop whenever no ptomb is
remembered (pt_len == 0 is a break condition, not an include condition). -/
theorem c1_counterexample :
    spec_capped_include treeC1.ct_last_ptomb
        (if 5 > treeC1.ct_last_ptseq then treeC1.ct_last_ptseq else 5)
        (mkKvset 1 0 0 0 [97]) = true ∧
      (cn_tree_capped_compact estId treeC1 5).1 = [] ∧
      (cn_tree_capped_compact estId treeC1 5).2 = treeC1 := by
  decide

lemma cappedScan_take (pt : List Nat) (hz : Nat) :
    ∀ l : List Kvset,
      l.take (cappedScan pt hz l) =
          l.takeWhile (fun kv => !cappedBreakCond pt hz kv) ∧
        cappedScan pt hz l ≤ l.length
  | [] => ⟨rfl, Nat.le_refl 0⟩
  | kv :: rest => by
    obtain ⟨ih1, ih2⟩ := cappedScan_take pt hz rest
    unfold cappedScan
    by_cases hb : cappedBreakCond pt hz kv
    · simp [hb, List.takeWhile_cons]
    · have hb' : cappedBreakCond pt hz kv = false := by
        simpa using hb
      refine ⟨?_, ?_⟩
      · rw [if_neg hb, List.take_succ_cons]
        simp [List.takeWhile_cons, hb', ih1]
      · rw [if_neg hb]
        simpa using Nat.succ_le_succ ih2

lemma update_compact_root_kvsets (est : Estimators) (t : CnTree) :
    (cn_tree_samp_update_compact est t .root).ct_root.tn_kvsets =
      t.ct_root.tn_kvsets := by
  unfold cn_tree_samp_update_compact CnTree.getNode samp_apply_delta CnTree.setNode
  dsimp only
  exact ((recompute_sampFrame est t.ct_root).2.2.1).trans
    ((clear_sampFrame_core t.ct_root).2.2.1)

/-- C1 amended: with horizon = min(sequence-horizon, remembered ptomb
seqno), the walk from the oldest root kvset toward the newest (never
reaching the newest itself) retires exactly the maximal contiguous run
of kvsets each satisfying: a ptomb is remembered, the kvset's max seqno
is below the horizon, and the ptomb does not lexicographically precede
the kvset's max key; the walk stops at the first kvset that fails this,
and the remaining root list keeps everything not in that run. -/
theorem c1_amended (est : Estimators) (t : CnTree) (h0 : Nat)
    (hlen : 2 ≤ t.ct_root.tn_kvsets.length) :
    (cn_tree_capped_compact est t h0).1 =
        (t.ct_root.tn_kvsets.reverse.take (t.ct_root.tn_kvsets.length - 1)).takeWhile
          (fun kv => !cappedBreakCond t.ct_last_ptomb
            (if h0 > t.ct_last_ptseq then t.ct_last_ptseq else h0) kv) ∧
      (cn_tree_capped_compact est t h0).2.ct_root.tn_kvsets =
        t.ct_root.tn_kvsets.take
          (t.ct_root.tn_kvsets.length - (cn_tree_capped_compact est t h0).1.length) := by
  unfold cn_tree_capped_compact
  rw [if_neg (by omega)]
  dsimp only
  generalize (if h0 > t.ct_last_ptseq then t.ct_last_ptseq else h0) = hz
  obtain ⟨hs1, hs2⟩ :=
    cappedScan_take t.ct_last_ptomb hz
      (t.ct_root.tn_kvsets.reverse.take (t.ct_root.tn_kvsets.length - 1))
  have hwlen :
      (t.ct_root.tn_kvsets.reverse.take (t.ct_root.tn_kvsets.length - 1)).length =
        t.ct_root.tn_kvsets.length - 1 := by
    rw [List.length_take, List.length_reverse]
    omega
  rw [hwlen] at hs2
  have hretired :
      t.ct_root.tn_kvsets.reverse.take
          (cappedScan t.ct_last_ptomb hz
            (t.ct_root.tn_kvsets.reverse.take (t.ct_root.tn_kvsets.length - 1))) =
        (t.ct_root.tn_kvsets.reverse.take (t.ct_root.tn_kvsets.length - 1)).takeWhile
          (fun kv => !cappedBreakCond t.ct_last_ptomb hz kv) := by
    rw [← hs1, List.take_take, Nat.min_eq_left hs2]
  by_cases hc :
      cappedScan t.ct_last_ptomb hz
        (t.ct_root.tn_kvsets.reverse.take (t.ct_root.tn_kvsets.length - 1)) = 0
  · rw [if_pos hc]
    rw [hc, List.take_zero] at hretired
    refine ⟨hretired, ?_⟩
    simp
  · rw [if_neg hc]
    refine ⟨hretired, ?_⟩
    rw [update_compact_root_kvsets]
    have hrlen :
        (t.ct_root.tn_kvsets.reverse.take
            (cappedScan t.ct_last_ptomb hz
              (t.ct_root.tn_kvsets.reverse.take
                (t.ct_root.tn_kvsets.length - 1)))).length =
          cappedScan t.ct_last_ptomb hz
            (t.ct_root.tn_kvsets.reverse.take (t.ct_root.tn_kvsets.length - 1)) := by
      rw [List.length_take, List.length_reverse]
      omega
    rw [hrlen]

/-- C1 amended witness at a concrete capped tree: the remembered ptomb
[255] covers the oldest kvset (max key [97], max seqno 0 < horizon 10),
so exactly that kvset is retired. -/
theorem c1_amended_witness :
    (cn_tree_capped_compact estId treeC1w 10).1 =
        (treeC1w.ct_root.tn_kvsets.reverse.take
            (treeC1w.ct_root.tn_kvsets.length - 1)).takeWhile
          (fun kv => !cappedBreakCond treeC1w.ct_last_ptomb
            (if 10 > treeC1w.ct_last_ptseq then treeC1w.ct_last_ptseq else 10) kv) ∧
      (cn_tree_capped_compact estId treeC1w 10).2.ct_root.tn_kvsets =
        treeC1w.ct_root.tn_kvsets.take
          (treeC1w.ct_root.tn_kvsets.length -
            (cn_tree_capped_compact estId treeC1w 10).1.length) :=
  c1_amended estId treeC1w 10 (by decide)

/-- C3 counterexample: with the job's compc equal to the next-older
kvset's compc (both 0), the code carries the compc unchanged (the
increment is taken only when cw_compc is strictly below the older
compc), while the claim's rule bumps to 1 (its carry condition demands
the older compc be strictly smaller than the job's). -/
theorem c3_counterexample :
    (cn_comp_commit_km wC3 nodeC3 nodeC3 0 0 0 0).km_compc = 0 ∧
      spec_compc_kvcompact wC3.cw_compc
        ((nodeC3.tn_kvsets.get? (wC3.cw_mark + 1)).map Kvset.compc) = 1 := by
  decide

/-- C3 amended: for a k-compact or kv-compact job, the output kvset's
compc equals the job's compc incremented by 1, unless the next-older
kvset in the node's list (the entry just past the mark) exists and has a
compc less than or equal to the job's compc, in which case the compc is
carried over without the increment. -/
theorem c3_amended (w : CompactionWork) (node dest : CnTreeNode)
    (kb vb sn sd : Nat)
    (hact : w.cw_action = .COMPACT_K ∨ w.cw_action = .COMPACT_KV) :
    (cn_comp_commit_km w node dest kb vb sn sd).km_compc =
      (match (node.tn_kvsets.get? (w.cw_mark + 1)).map Kvset.compc with
       | none => w.cw_compc + 1
       | some oc => if oc ≤ w.cw_compc then w.cw_compc else w.cw_compc + 1) := by
  rcases hact with h | h <;>
    · unfold cn_comp_commit_km
      rw [h]
      dsimp only
      cases ho : node.tn_kvsets.get? (w.cw_mark + 1) with
      | none => simp [ho]
      | some kvo =>
        simp only [ho, Option.map_some']
        by_cases hlt : w.cw_compc < kvo.compc
        · rw [if_pos hlt, if_neg (by omega)]
        · rw [if_neg hlt, if_pos (by omega)]

/-- C3 amended witness, at the compc-equality input of the
counterexample: the code's output compc matches the amended rule. -/
theorem c3_amended_witness :
    (cn_comp_commit_km wC3 nodeC3 nodeC3 0 0 0 0).km_compc =
      (match (nodeC3.tn_kvsets.get? (wC3.cw_mark + 1)).map Kvset.compc with
       | none => wC3.cw_compc + 1
       | some oc => if oc ≤ wC3.cw_compc then wC3.cw_compc else wC3.cw_compc + 1) :=
  c3_amended wC3 nodeC3 nodeC3 0 0 0 0 (Or.inr rfl)

/-- C2: For every root node with a non-empty concurrent-spill FIFO, the
completed-spill picker returns no job unless the head of the FIFO has
its rspill_done flag set and its commit_in_progress flag clear; when it
does return the head it first sets commit_in_progress, and if the node
is wedged and the returned job has no error, the picker overrides that
job's error to shutdown and marks it canceled (the job stays at the head
of the FIFO). -/
theorem c2_get_completed_spill (node : CnTreeNode) (w : CompactionWork)
    (rest : List CompactionWork) (hq : node.tn_rspills = w :: rest) :
    ((get_completed_spill node).1 ≠ none →
        w.cw_rspill_done = true ∧ w.cw_rspill_commit_in_progress = false) ∧
      ∀ j, (get_completed_spill node).1 = some j →
        j.cw_rspill_commit_in_progress = true ∧
        (get_completed_spill node).2.tn_rspills = j :: rest ∧
        (node.tn_rspills_wedged = true ∧ w.cw_err = 0 →
          j = { w with cw_rspill_commit_in_progress := true,
                       cw_err := ESHUTDOWN, cw_canceled := true }) ∧
        (¬(node.tn_rspills_wedged = true ∧ w.cw_err = 0) →
          j = { w with cw_rspill_commit_in_progress := true }) := by
  unfold get_completed_spill
  rw [hq]
  dsimp only
  by_cases h1 : (!w.cw_rspill_done || w.cw_rspill_commit_in_progress) = true
  · rw [if_pos h1]
    exact ⟨fun hne => absurd rfl hne, fun j hj => Option.noConfusion hj⟩
  · rw [if_neg h1]
    dsimp only
    have hd : w.cw_rspill_done = true ∧ w.cw_rspill_commit_in_progress = false := by
      revert h1
      cases w.cw_rspill_done <;> cases w.cw_rspill_commit_in_progress <;> simp
    refine ⟨fun _ => hd, fun j hj => ?_⟩
    injection hj with hj
    subst hj
    by_cases h2 : (node.tn_rspills_wedged && decide (w.cw_err = 0)) = true
    · rw [if_pos h2]
      have h2' : node.tn_rspills_wedged = true ∧ w.cw_err = 0 := by
        simpa using h2
      exact ⟨rfl, rfl, fun _ => rfl, fun hcon => absurd h2' hcon⟩
    · rw [if_neg h2]
      have h2' : ¬(node.tn_rspills_wedged = true ∧ w.cw_err = 0) := by
        simpa using h2
      exact ⟨rfl, rfl, fun hcon => absurd hcon h2', fun _ => rfl⟩

/-- C2 witness: on a wedged root whose FIFO head is a completed,
error-free spill, the picker returns the head with commit_in_progress
set, its error forced to ESHUTDOWN and canceled set, leaving it at the
head of the FIFO. -/
theorem c2_witness :
    (get_completed_spill nodeC2).1 =
        some { wC2 with cw_rspill_commit_in_progress := true,
                        cw_err := ESHUTDOWN, cw_canceled := true } ∧
      (get_completed_spill nodeC2).2.tn_rspills =
        [{ wC2 with cw_rspill_commit_in_progress := true,
                    cw_err := ESHUTDOWN, cw_canceled := true }] := by
  obtain ⟨-, h⟩ := c2_get_completed_spill nodeC2 wC2 [] rfl
  have h1 : (get_completed_spill nodeC2).1 =
      some { wC2 with cw_rspill_commit_in_progress := true,
                      cw_err := ESHUTDOWN, cw_canceled := true } := by
    decide
  obtain ⟨-, hlist, -, -⟩ := h _ h1
  exact ⟨h1, hlist⟩

lemma scanKvsets_find (lk : Kvset → KvOut) :
    ∀ l : List Kvset,
      scanKvsets lk l = (l.find? fun kv => isHit (lk kv)).map lk
  | [] => rfl
  | kv :: rest => by
    unfold scanKvsets
    by_cases hh : isHit (lk kv)
    · simp [List.find?_cons, hh]
    · simp [List.find?_cons, hh, scanKvsets_find lk rest]

/-- C5: For every point-get, the search walks the root's kvset list from
head (newest) to tail (oldest) and returns the first outcome carrying an
error, a found value or a tombstone; if the key is not found at the
root, the route map resolves the key to at most one leaf (exactly one,
per the route-map contract) whose list is walked the same way; the
descent visits at most two nodes (the root plus one leaf). -/
theorem c5_tree_lookup (t : CnTree) (lk : Kvset → KvOut)
    (route : List Nat → Option Nat) (key : List Nat) :
    (cn_tree_lookup t lk route key).2 ≤ 2 ∧
      (cn_tree_lookup t lk route key).1 =
        (match t.ct_root.tn_kvsets.find? (fun kv => isHit (lk kv)) with
         | some kv => lk kv
         | none =>
           match (route key).bind (fun i => t.ct_leaves.get? i) with
           | none => ⟨0, .NOT_FOUND⟩
           | some leaf =>
             match leaf.tn_kvsets.find? (fun kv => isHit (lk kv)) with
             | some kv => lk kv
             | none => ⟨0, .NOT_FOUND⟩) := by
  unfold cn_tree_lookup
  simp only [scanKvsets_find lk]
  cases hf : t.ct_root.tn_kvsets.find? (fun kv => isHit (lk kv)) with
  | some kv => simp [hf]
  | none =>
    simp only [hf, Option.map_none', List.get?_eq_getElem?]
    cases hr : route key with
    | none => simp
    | some i =>
      simp only [Option.bind_some]
      cases hl : t.ct_leaves[i]? with
      | none => simp [hl]
      | some leaf =>
        cases hf2 : leaf.tn_kvsets.find? (fun kv => isHit (lk kv)) <;>
          simp [hl, hf2]

/-- C6: For every compaction work descriptor accepted by preparation,
tombstone dropping is enabled if and only if the action is not spill and
the work's mark is the last (oldest) entry of the target node's kvset
list. -/
theorem c6_drop_tombs (fanout : Nat) (w : CompactionWork)
    (node : CnTreeNode) (out : PrepOut)
    (hok : cn_tree_prepare_compaction fanout w node = .ok out) :
    out.cw_drop_tombs = true ↔
      (w.cw_action ≠ .SPILL ∧ w.cw_mark + 1 = node.tn_kvsets.length) := by
  unfold cn_tree_prepare_compaction at hok
  dsimp only at hok
  split_ifs at hok <;>
    first
      | exact Except.noConfusion hok
      | (injection hok with hok; subst hok; simp)

/-- C6 witness: a kv-compact whose mark is the node's oldest kvset has
tombstone dropping enabled. -/
theorem c6_witness :
    outC6.cw_drop_tombs = true ↔
      (wC6.cw_action ≠ .SPILL ∧ wC6.cw_mark + 1 = nodeC6.tn_kvsets.length) :=
  c6_drop_tombs 4 wC6 nodeC6 outC6 (by rfl)

lemma setWorkidZero_get :
    ∀ (ks : List Kvset) (j i : Nat),
      (setWorkidZero ks j).get? i =
        if i = j then (ks.get? i).map (fun kv => { kv with workid := 0 })
        else ks.get? i
  | [], j, i => by
    simp [setWorkidZero]
  | kv :: rest, 0, 0 => by
    simp [setWorkidZero]
  | kv :: rest, 0, i + 1 => by
    simp [setWorkidZero]
  | kv :: rest, j + 1, 0 => by
    simp [setWorkidZero]
  | kv :: rest, j + 1, i + 1 => by
    simp only [setWorkidZero, List.get?_cons_succ, setWorkidZero_get rest j i]
    by_cases h : i = j <;> simp [h]

lemma unmark_workids_get :
    ∀ (cnt markIdx : Nat) (ks : List Kvset) (i : Nat), cnt ≤ markIdx + 1 →
      (unmark_workids markIdx cnt ks).get? i =
        if i ≤ markIdx ∧ markIdx < i + cnt then
          (ks.get? i).map (fun kv => { kv with workid := 0 })
        else ks.get? i
  | 0, markIdx, ks, i, _ => by
    unfold unmark_workids
    rw [if_neg (by omega)]
  | c + 1, 0, ks, i, h => by
    have hc : c = 0 := by omega
    subst hc
    show (unmark_workids (0 - 1) 0 (setWorkidZero ks 0)).get? i = _
    unfold unmark_workids
    rw [setWorkidZero_get]
    by_cases hi : i = 0
    · subst hi
      rw [if_pos rfl, if_pos (by omega)]
    · rw [if_neg hi, if_neg (by omega)]
  | c + 1, m + 1, ks, i, h => by
    show (unmark_workids (m + 1 - 1) c (setWorkidZero ks (m + 1))).get? i = _
    have ih := unmark_workids_get c m (setWorkidZero ks (m + 1)) i (by omega)
    simp only [Nat.add_sub_cancel]
    rw [ih, setWorkidZero_get]
    by_cases hi : i = m + 1
    · subst hi
      rw [if_neg (by omega), if_pos rfl, if_pos (by omega)]
    · rw [if_neg hi]
      by_cases hA : i ≤ m ∧ m < i + c
      · rw [if_pos hA, if_pos (by omega)]
      · rw [if_neg hA, if_neg (by omega)]

/-- C10: When a compaction job is released with a nonzero error, the
release step resets the work-id of every one of the job's kvset_cnt
input kvsets (from the mark toward the head) to zero, leaves every other
kvset untouched, and returns the node's compaction token if the job held
it. -/
theorem c10_comp_release (w : CompactionWork) (node : CnTreeNode)
    (herr : w.cw_err ≠ 0) (hcnt : w.cw_kvset_cnt ≤ w.cw_mark + 1) :
    (∀ i, i ≤ w.cw_mark → w.cw_mark < i + w.cw_kvset_cnt →
        (cn_comp_release w node).tn_kvsets.get? i =
          (node.tn_kvsets.get? i).map (fun kv => { kv with workid := 0 })) ∧
      (∀ i, ¬(i ≤ w.cw_mark ∧ w.cw_mark < i + w.cw_kvset_cnt) →
        (cn_comp_release w node).tn_kvsets.get? i = node.tn_kvsets.get? i) ∧
      (w.cw_have_token = true → (cn_comp_release w node).tn_compacting = false) := by
  have hkv : (cn_comp_release w node).tn_kvsets =
      unmark_workids w.cw_mark w.cw_kvset_cnt node.tn_kvsets := by
    unfold cn_comp_release
    split_ifs <;> simp_all
  refine ⟨fun i h1 h2 => ?_, fun i hni => ?_, fun ht => ?_⟩
  · rw [hkv, unmark_workids_get _ _ _ _ hcnt, if_pos ⟨h1, h2⟩]
  · rw [hkv, unmark_workids_get _ _ _ _ hcnt, if_neg hni]
  · unfold cn_comp_release
    split_ifs <;> simp_all

/-- C10 witness: releasing a failed job that covers both kvsets of a
node and holds the token zeroes both work-ids and clears the token. -/
theorem c10_witness :
    ((cn_comp_release wC10 nodeC10).tn_kvsets.get? 0).map Kvset.workid = some 0 ∧
      ((cn_comp_release wC10 nodeC10).tn_kvsets.get? 1).map Kvset.workid = some 0 ∧
      (cn_comp_release wC10 nodeC10).tn_compacting = false := by
  obtain ⟨h1, -, h3⟩ := c10_comp_release wC10 nodeC10 (by decide) (by decide)
  refine ⟨?_, ?_, h3 rfl⟩
  · rw [h1 0 (by decide) (by decide)]
    decide
  · rw [h1 1 (by decide) (by decide)]
    decide

/-- C4 witness: the samp sum invariant is preserved by a spill update on
a concrete tree with one root and one leaf. -/
theorem c4_witness : sampInv (applySampUpdate estId .spill treeW) :=
  c4_samp_sum_invariant estId .spill treeW (by decide)

/-- C7 witness: ingesting a concrete kvset into a concrete tree adds it
at the head of the root list, bumps the change generation, grows the
internal and root totals, keeps the leaf totals, and notifies the
scheduler with exactly the r_alen and r_wlen deltas. -/
theorem c7_witness :
    (cn_tree_ingest_update estId treeW (mkKvset 2 0 0 4 [98])
          false [] 0).tree.ct_root.tn_kvsets =
        mkKvset 2 0 0 4 [98] :: treeW.ct_root.tn_kvsets ∧
      (cn_tree_ingest_update estId treeW (mkKvset 2 0 0 4 [98])
          false [] 0).tree.ct_root.tn_cgen =
        treeW.ct_root.tn_cgen + 1 ∧
      (cn_tree_ingest_update estId treeW (mkKvset 2 0 0 4 [98])
          false [] 0).samp_pre.i_alen ≤
        (cn_tree_ingest_update estId treeW (mkKvset 2 0 0 4 [98])
          false [] 0).samp_post.i_alen ∧
      (cn_tree_ingest_update estId treeW (mkKvset 2 0 0 4 [98])
          false [] 0).samp_pre.r_wlen ≤
        (cn_tree_ingest_update estId treeW (mkKvset 2 0 0 4 [98])
          false [] 0).samp_post.r_wlen ∧
      (cn_tree_ingest_update estId treeW (mkKvset 2 0 0 4 [98])
          false [] 0).samp_post.l_alen =
        (cn_tree_ingest_update estId treeW (mkKvset 2 0 0 4 [98])
          false [] 0).samp_pre.l_alen ∧
      (cn_tree_ingest_update estId treeW (mkKvset 2 0 0 4 [98])
          false [] 0).samp_post.l_good =
        (cn_tree_ingest_update estId treeW (mkKvset 2 0 0 4 [98])
          false [] 0).samp_pre.l_good ∧
      (cn_tree_ingest_update estId treeW (mkKvset 2 0 0 4 [98])
          false [] 0).notify_alen =
        (cn_tree_ingest_update estId treeW (mkKvset 2 0 0 4 [98])
            false [] 0).samp_post.r_alen -
          (cn_tree_ingest_update estId treeW (mkKvset 2 0 0 4 [98])
            false [] 0).samp_pre.r_alen ∧
      (cn_tree_ingest_update estId treeW (mkKvset 2 0 0 4 [98])
          false [] 0).notify_wlen =
        (cn_tree_ingest_update estId treeW (mkKvset 2 0 0 4 [98])
            false [] 0).samp_post.r_wlen -
          (cn_tree_ingest_update estId treeW (mkKvset 2 0 0 4 [98])
            false [] 0).samp_pre.r_wlen :=
  c7_ingest_update estId treeW (mkKvset 2 0 0 4 [98]) false [] 0
    (by decide) (by decide) (by decide) (by decide) (by decide)

end HseCn
